import Mathlib

/-
Verification of the workflow database-utilities module (workflow/db_utils.py).

The module resolves taxonomic identifiers to species names through a remote
taxonomy service, wraps that resolution in a bounded retry loop, and drives
three external tools (a sequence database builder, a suffix-index builder and
a repeat harvester) over batches of input files, skipping work that a marker
file shows to be already complete.

The embedding below is shallow: pure string manipulation is translated
directly; the remote service and the per-attempt behaviour of the resolver
are oracles passed in as functions; external process invocations are recorded
as explicit call records in a trace; raised exceptions are an Except value.
-/

namespace DbUtils

/-- Model of os.path.join for the simple relative paths used by the module. -/
def pyJoin (a b : String) : String :=
  a ++ ("/") ++ b

/-- Model of the Python expression s.split(".")[0]: the prefix of the
string before the first dot (the whole string when no dot occurs). -/
def pyHeadSplitDot (s : String) : String :=
  String.mk (s.data.takeWhile (fun c => c != '.'))

/-- Model of the Python expression s.replace(" ", "_"): every space
character becomes an underscore. -/
def pyReplaceSpace (s : String) : String :=
  String.mk (s.data.map (fun c => if c = ' ' then '_' else c))

/-- Strip leading and trailing whitespace, as Python int() does before
parsing a string. -/
def pyStrip (l : List Char) : List Char :=
  ((l.dropWhile Char.isWhitespace).reverse.dropWhile Char.isWhitespace).reverse

/-- Tail of the digit parser of Python int(): digits may be separated by
single underscores; the flag records whether the previous character was an
underscore (an underscore may not be doubled or trailing). -/
def digitsTail : List Char → Nat → Bool → Option Nat
  | [], acc, afterU => if afterU then none else some acc
  | c :: rest, acc, afterU =>
    if c.isDigit then digitsTail rest (acc * 10 + (c.toNat - 48)) false
    else if c = '_' && !afterU then digitsTail rest acc true
    else none

/-- Unsigned core of Python int(): at least one digit, underscores only
between digits. -/
def pyIntCore : List Char → Option Nat
  | [] => none
  | c :: rest => if c.isDigit then digitsTail rest (c.toNat - 48) false else none

/-- Optional sign in front of the digits of Python int(). -/
def pySignedDigits (l : List Char) : Option Int :=
  match l with
  | [] => none
  | c :: rest =>
    if c = '+' then (pyIntCore rest).map Int.ofNat
    else if c = '-' then (pyIntCore rest).map (fun n => -(Int.ofNat n))
    else (pyIntCore (c :: rest)).map Int.ofNat

/-- Model of Python int(s) on a string: some value on success, none when a
ValueError would be raised. -/
def pyInt (s : String) : Option Int :=
  pySignedDigits (pyStrip s.data)

/-- One record of the record set returned by the remote taxonomy service. -/
structure TaxRecord where
  ScientificName : String
deriving DecidableEq

/-- Model of get_species_name_from_file.  The remote service is the oracle
efetch, which either returns the record set for an id or raises (a network
or HTTP error, carried as the error message).  The result pairs the returned
name with the list of ids that were actually queried remotely, so that the
absence of a remote query is observable.  A ValueError from int() is handled
locally: the function returns the pre-dot prefix of its argument unchanged.
An exception of the oracle propagates. -/
def get_species_name_from_file (efetch : Int → Except String (List TaxRecord))
    (taxid_file : String) : Except String (String × List Int) :=
  let taxid_file_query := pyHeadSplitDot taxid_file
  match pyInt taxid_file_query with
  | none => .ok (taxid_file_query, [])
  | some n =>
    match efetch n with
    | .error e => .error e
    | .ok records =>
      match records with
      | [] => .ok (toString n, [n])
      | r :: _ => .ok (pyReplaceSpace r.ScientificName, [n])

/-- Outcome of the bounded retry loop around the species-name resolution:
success carries the value and the number of invocations performed; terminal
carries the exception of the last attempt (raised as RuntimeError from it)
and the number of invocations; noAttempt marks a zero bound, where the loop
body never runs and sc_name stays None. -/
inductive RetryOutcome (ε α : Type) where
  | success (value : α) (invocations : Nat)
  | terminal (cause : ε) (invocations : Nat)
  | noAttempt
deriving DecidableEq

/-- The retry loop of the three batch functions, from a given attempt index
with a given number of remaining attempts.  The oracle f gives the outcome
of each successive invocation of the wrapped unit of work. -/
def retryGo (f : Nat → Except ε α) : Nat → Nat → RetryOutcome ε α
  | _, 0 => .noAttempt
  | attempt, r + 1 =>
    match f attempt with
    | .ok v => .success v (attempt + 1)
    | .error e =>
      if r = 0 then .terminal e (attempt + 1)
      else retryGo f (attempt + 1) r

/-- The retry loop: for attempt in range(max_attempts), invoke, break on
success, raise a RuntimeError from the last exception when the final
attempt fails. -/
def retryLoop (f : Nat → Except ε α) (max_attempts : Nat) : RetryOutcome ε α :=
  retryGo f 0 max_attempts

/-- A resolver oracle that deterministically succeeds: the attempt index is
ignored and resolution returns nmf s.  Used to state batch-level claims in
which resolution never raises. -/
def pureRes (nmf : String → String) : String → Nat → Except String String :=
  fun s _ => .ok (nmf s)

/-- A Python exception escaping one of the batch functions: either the
RuntimeError raised when the retry loop is exhausted for a file (carrying
the file, the bound and the exception of the last attempt as cause), or the
TypeError raised by path joining when max_attempts = 0 leaves sc_name as
None in directory_db_generator. -/
inductive PyErr where
  | runtimeError (file : String) (max_attempts : Nat) (cause : String)
  | typeError
deriving DecidableEq

/-- The directory-state check shared by directory_db_generator (marker .ndb)
and ltr_index_generator (marker .esq).  The filesystem snapshot lists the
immediate subdirectories of the root, each paired with whether it contains
at least one file with the marker extension; the valid directories are
those with the marker. -/
def validDirectories (fs : List (String × Bool)) : List String :=
  (fs.filter (fun d => d.2)).map (fun d => d.1)

/-- The skip check shared by all three batch loops: the resolved name is in
the already-complete collection and force_rerun is false. -/
def skip_existing (known : List String) (force_rerun : Bool) (sc_name : String) : Bool :=
  known.contains sc_name && !force_rerun

/-- The existing-species computation of ltr_harvester: glob the files named
*.fasta directly under the output root and strip the .fasta extension
(os.path.splitext) from each basename. -/
def globFastaStems (rootFiles : List String) : List String :=
  (rootFiles.filter (fun n => (".fasta").data.isSuffixOf n.data)).map
    (fun n => String.mk (n.data.take (n.data.length - 6)))

/-- One invocation of the external database builder, as assembled by
blast_db_generator: makeblastdb -in input -dbtype db_type -out out/db_name. -/
structure BlastCall where
  input : String
  dbtype : String
  out : String
  dbName : String
deriving DecidableEq

/-- Model of blast_db_generator: assemble and run the makeblastdb command;
the invocation is returned as a trace record. -/
def blast_db_generator (input_file_path output_directory_path db_name db_type : String) :
    BlastCall :=
  { input := input_file_path
    dbtype := db_type
    out := pyJoin output_directory_path db_name
    dbName := db_name }

/-- Modelled from the spec: utils.directory_generator is not under src/.
Per section 4.4 of the specification it ensures that the per-species output
directory (the species subdirectory of the output root) exists, creating it
when absent, and returns it. -/
def directory_generator (output_directory_path sc_name : String) : String :=
  pyJoin output_directory_path sc_name

/-- The arguments of directory_db_generator that stay fixed across the file
loop.  valid is the snapshot of already-complete directories computed once
before the loop; resolve is the species-name resolution oracle standing for
get_species_name_from_file together with the per-invocation behaviour of
the remote service. -/
structure DbCtx where
  valid : List String
  resolve : String → Nat → Except String String
  input_db : String
  db_type : String
  tax_id_input : Bool
  output_directory_path : String
  max_attempts : Nat
  force_rerun : Bool

/-- The file loop of directory_db_generator: resolve with retry, skip when
the species directory already holds a .ndb marker and force_rerun is false,
otherwise create the species directory and invoke the database builder,
appending the resolved name to the genomes list.  Returns the genomes list
paired with the trace of builder invocations. -/
def dbLoop (ctx : DbCtx) : List String → Except PyErr (List String × List BlastCall)
  | [] => .ok ([], [])
  | file :: rest =>
    match retryLoop (ctx.resolve (pyHeadSplitDot file)) ctx.max_attempts with
    | .terminal e _ => .error (.runtimeError file ctx.max_attempts e)
    | .noAttempt => .error .typeError
    | .success sc_name _ =>
      if skip_existing ctx.valid ctx.force_rerun sc_name then
        dbLoop ctx rest
      else
        let directory := directory_generator ctx.output_directory_path sc_name
        let call :=
          if ctx.tax_id_input then
            blast_db_generator (pyJoin ctx.input_db file) directory sc_name ctx.db_type
          else
            blast_db_generator (pyJoin ctx.input_db (sc_name ++ (".fasta"))) directory
              sc_name ctx.db_type
        match dbLoop ctx rest with
        | .error e => .error e
        | .ok (genomes, calls) => .ok (sc_name :: genomes, call :: calls)

/-- Model of directory_db_generator.  fs is the snapshot of the output root
taken before the loop: its immediate subdirectories paired with whether
each contains a .ndb file.  The result is the list of generated genomes
together with the trace of external database-builder invocations. -/
def directory_db_generator (fs : List (String × Bool)) (file_list : List String)
    (input_db : String) (db_type : String) (tax_id_input : Bool)
    (output_directory_path : String) (resolve : String → Nat → Except String String)
    (max_attempts : Nat) (force_rerun : Bool) :
    Except PyErr (List String × List BlastCall) :=
  dbLoop
    { valid := validDirectories fs
      resolve := resolve
      input_db := input_db
      db_type := db_type
      tax_id_input := tax_id_input
      output_directory_path := output_directory_path
      max_attempts := max_attempts
      force_rerun := force_rerun }
    file_list

/-- The per-file genome entry of directory_db_generator under a resolver
that deterministically returns nmf: none when the file is skipped, the
resolved name otherwise. -/
def dbStepName (valid : List String) (force_rerun : Bool) (nmf : String → String)
    (file : String) : Option String :=
  if skip_existing valid force_rerun (nmf (pyHeadSplitDot file)) then none
  else some (nmf (pyHeadSplitDot file))

/-- The per-file builder invocation of directory_db_generator under a
resolver that deterministically returns nmf: none when the file is skipped,
the assembled makeblastdb call otherwise. -/
def dbStepCall (valid : List String) (force_rerun : Bool) (nmf : String → String)
    (input_db db_type : String) (tax_id_input : Bool) (output_directory_path : String)
    (file : String) : Option BlastCall :=
  if skip_existing valid force_rerun (nmf (pyHeadSplitDot file)) then none
  else
    some
      (if tax_id_input then
        blast_db_generator (pyJoin input_db file)
          (directory_generator output_directory_path (nmf (pyHeadSplitDot file)))
          (nmf (pyHeadSplitDot file)) db_type
      else
        blast_db_generator (pyJoin input_db (nmf (pyHeadSplitDot file) ++ (".fasta")))
          (directory_generator output_directory_path (nmf (pyHeadSplitDot file)))
          (nmf (pyHeadSplitDot file)) db_type)

/-- An in-memory sequence object of the object dictionary: its get_fasta
method produces, for a given mode string, the FASTA serialization that
SeqIO.write appends to the open output file. -/
structure SeqObj where
  get_fasta : String → String

/-- Model of objdict2fasta: join the output path, open the output file once,
and for each entry of the dictionary in insertion order append the FASTA
serialization of the object and log the append.  The result is the output
path, the final content of the file, and the log lines in order. -/
def objdict2fasta (object_dict : List (String × SeqObj))
    (output_directory_path output_file_name : String) :
    String × String × List String :=
  let output_file_path := pyJoin output_directory_path output_file_name
  let res := object_dict.foldl
    (fun acc kv =>
      (acc.1 ++ kv.2.get_fasta ("seqrecord"),
       acc.2 ++ [("Extracted FASTA from ") ++ kv.1 ++ (" and appended to ")
          ++ output_file_name ++ (".")]))
    ((""), [])
  (output_file_path, res.1, res.2)

/-- The concatenation, in dictionary order, of the FASTA serializations of
the objects: one record per entry. -/
def concatFasta : List (String × SeqObj) → String
  | [] => ("")
  | kv :: rest => kv.2.get_fasta ("seqrecord") ++ concatFasta rest

/-- The log line of one append of objdict2fasta. -/
def fastaLogLine (key output_file_name : String) : String :=
  ("Extracted FASTA from ") ++ key ++ (" and appended to ") ++ output_file_name ++ (".")

/-- One invocation of the external suffix-index builder, as assembled by
ltr_index_generator: gt suffixerator -db db -indexname indexname with the
fixed table flags. -/
structure SuffixCall where
  db : String
  indexname : String
  sc_name : String
deriving DecidableEq

/-- The arguments of ltr_index_generator that stay fixed across the file
loop.  species is the registry defaults.SPECIES, supplied externally by
configuration. -/
structure IdxCtx where
  valid : List String
  species : List String
  resolve : String → Nat → Except String String
  input_directory_path : String
  max_attempts : Nat
  force_rerun : Bool

/-- The file loop of ltr_index_generator: resolve with retry, skip when the
species directory already holds a .esq marker and force_rerun is false, and
invoke the suffix-index builder only when the resolved name is in the
species registry.  When max_attempts = 0, sc_name stays None: it is neither
in the valid directories nor in the registry, so the iteration falls
through without any invocation. -/
def idxLoop (ctx : IdxCtx) : List String → Except PyErr (List SuffixCall)
  | [] => .ok []
  | file :: rest =>
    match retryLoop (ctx.resolve (pyHeadSplitDot file)) ctx.max_attempts with
    | .terminal e _ => .error (.runtimeError file ctx.max_attempts e)
    | .noAttempt => idxLoop ctx rest
    | .success sc_name _ =>
      if skip_existing ctx.valid ctx.force_rerun sc_name then
        idxLoop ctx rest
      else if ctx.species.contains sc_name then
        match idxLoop ctx rest with
        | .error e => .error e
        | .ok calls =>
          .ok
            ({ db := pyJoin ctx.input_directory_path file
               indexname := pyJoin (pyJoin ctx.input_directory_path sc_name) sc_name
               sc_name := sc_name } :: calls)
      else idxLoop ctx rest

/-- Model of ltr_index_generator.  fs is the snapshot of the input root:
its immediate subdirectories paired with whether each contains a .esq file.
The Python function returns None; the model returns the unit value paired
with the trace of external index-builder invocations. -/
def ltr_index_generator (fs : List (String × Bool)) (input_directory_path : String)
    (file_list : List String) (species : List String)
    (resolve : String → Nat → Except String String) (max_attempts : Nat)
    (force_rerun : Bool) : Except PyErr (Unit × List SuffixCall) :=
  (idxLoop
    { valid := validDirectories fs
      species := species
      resolve := resolve
      input_directory_path := input_directory_path
      max_attempts := max_attempts
      force_rerun := force_rerun }
    file_list).map (fun tr => ((), tr))

/-- One invocation of the external repeat harvester, as assembled by
ltr_harvester: gt ltrharvest -index index -out out -gff3 gff3. -/
structure HarvestCall where
  index : String
  out : String
  gff3 : String
  sc_name : String
deriving DecidableEq

/-- The arguments of ltr_harvester that stay fixed across the file loop.
existing is the snapshot of species with a .fasta output directly under the
output root, computed once before the loop. -/
structure HarvCtx where
  existing : List String
  species : List String
  resolve : String → Nat → Except String String
  index_directory_path : String
  output_directory_path : String
  max_attempts : Nat
  force_rerun : Bool

/-- The file loop of ltr_harvester: resolve with retry, skip when the
output .fasta for the species already sits directly under the output root
and force_rerun is false, and invoke the harvester only when the resolved
name is in the species registry. -/
def harvLoop (ctx : HarvCtx) : List String → Except PyErr (List HarvestCall)
  | [] => .ok []
  | file :: rest =>
    match retryLoop (ctx.resolve (pyHeadSplitDot file)) ctx.max_attempts with
    | .terminal e _ => .error (.runtimeError file ctx.max_attempts e)
    | .noAttempt => harvLoop ctx rest
    | .success sc_name _ =>
      if skip_existing ctx.existing ctx.force_rerun sc_name then
        harvLoop ctx rest
      else if ctx.species.contains sc_name then
        match harvLoop ctx rest with
        | .error e => .error e
        | .ok calls =>
          .ok
            ({ index := pyJoin (pyJoin ctx.index_directory_path sc_name) sc_name
               out := pyJoin ctx.output_directory_path (sc_name ++ (".fasta"))
               gff3 := pyJoin ctx.output_directory_path (sc_name ++ (".gff"))
               sc_name := sc_name } :: calls)
      else harvLoop ctx rest

/-- Model of ltr_harvester.  rootFiles is the snapshot of the file names
directly under the output root, from which the existing .fasta outputs are
globbed.  The Python function returns None; the model returns the unit
value paired with the trace of external harvester invocations. -/
def ltr_harvester (rootFiles : List String) (index_directory_path : String)
    (file_list : List String) (output_directory_path : String) (species : List String)
    (resolve : String → Nat → Except String String) (max_attempts : Nat)
    (force_rerun : Bool) : Except PyErr (Unit × List HarvestCall) :=
  (harvLoop
    { existing := globFastaStems rootFiles
      species := species
      resolve := resolve
      index_directory_path := index_directory_path
      output_directory_path := output_directory_path
      max_attempts := max_attempts
      force_rerun := force_rerun }
    file_list).map (fun tr => ((), tr))

/-- The per-file invocation of ltr_index_generator under a resolver that
deterministically returns nmf: none when the file is skipped or the
resolved name is outside the species registry, the assembled suffixerator
call otherwise. -/
def idxStep (valid species : List String) (force_rerun : Bool) (nmf : String → String)
    (input_directory_path : String) (file : String) : Option SuffixCall :=
  if skip_existing valid force_rerun (nmf (pyHeadSplitDot file)) then none
  else if species.contains (nmf (pyHeadSplitDot file)) then
    some
      { db := pyJoin input_directory_path file
        indexname :=
          pyJoin (pyJoin input_directory_path (nmf (pyHeadSplitDot file)))
            (nmf (pyHeadSplitDot file))
        sc_name := nmf (pyHeadSplitDot file) }
  else none

/-- The per-file invocation of ltr_harvester under a resolver that
deterministically returns nmf: none when the file is skipped or the
resolved name is outside the species registry, the assembled ltrharvest
call otherwise. -/
def harvStep (existing species : List String) (force_rerun : Bool) (nmf : String → String)
    (index_directory_path output_directory_path : String) (file : String) :
    Option HarvestCall :=
  if skip_existing existing force_rerun (nmf (pyHeadSplitDot file)) then none
  else if species.contains (nmf (pyHeadSplitDot file)) then
    some
      { index :=
          pyJoin (pyJoin index_directory_path (nmf (pyHeadSplitDot file)))
            (nmf (pyHeadSplitDot file))
        out := pyJoin output_directory_path (nmf (pyHeadSplitDot file) ++ (".fasta"))
        gff3 := pyJoin output_directory_path (nmf (pyHeadSplitDot file) ++ (".gff"))
        sc_name := nmf (pyHeadSplitDot file) }
  else none

/- ---------------------------------------------------------------------
Lemmas about the retry loop.
--------------------------------------------------------------------- -/

theorem retryGo_err_step (f : Nat → Except ε α) (a r : Nat) (e : ε)
    (hf : f a = .error e) (hr : r ≠ 0) :
    retryGo f a (r + 1) = retryGo f (a + 1) r := by
  simp [retryGo, hf, hr]

theorem retryGo_skip (f : Nat → Except ε α) (d : Nat) :
    ∀ a r : Nat, d < r → (∀ i, i < d → ∃ e, f (a + i) = .error e) →
      retryGo f a r = retryGo f (a + d) (r - d) := by
  induction d with
  | zero => intro a r _ _; simp
  | succ d ih =>
    intro a r hd herr
    obtain ⟨e, he⟩ := herr 0 (Nat.succ_pos d)
    obtain ⟨r', rfl⟩ : ∃ r', r = r' + 1 := ⟨r - 1, by omega⟩
    have hr' : r' ≠ 0 := by omega
    rw [show a + 0 = a from rfl] at he
    rw [retryGo_err_step f a r' e he hr']
    have hrec := ih (a + 1) r' (by omega) (fun i hi => by
      obtain ⟨e', he'⟩ := herr (i + 1) (by omega)
      exact ⟨e', by rw [show a + 1 + i = a + (i + 1) from by omega]; exact he'⟩)
    rw [hrec, show a + 1 + d = a + (d + 1) from by omega,
      show r' - d = r' + 1 - (d + 1) from by omega]

theorem retryLoop_success_at (f : Nat → Except ε α) (m k : Nat) (v : α)
    (hk1 : 1 ≤ k) (hkm : k ≤ m)
    (herr : ∀ i, i < k - 1 → ∃ e, f i = .error e)
    (hok : f (k - 1) = .ok v) :
    retryLoop f m = .success v k := by
  unfold retryLoop
  rw [retryGo_skip f (k - 1) 0 m (by omega) (fun i hi => by simpa using herr i hi)]
  obtain ⟨r', hr'⟩ : ∃ r', m - (k - 1) = r' + 1 := ⟨m - k, by omega⟩
  rw [show 0 + (k - 1) = k - 1 from by omega, hr']
  simp [retryGo, hok]
  omega

theorem retryLoop_exhaust (f : Nat → Except ε α) (m : Nat) (e : ε)
    (hm : 1 ≤ m)
    (herr : ∀ i, i < m - 1 → ∃ e', f i = .error e')
    (hlast : f (m - 1) = .error e) :
    retryLoop f m = .terminal e m := by
  unfold retryLoop
  rw [retryGo_skip f (m - 1) 0 m (by omega) (fun i hi => by simpa using herr i hi)]
  rw [show 0 + (m - 1) = m - 1 from by omega, show m - (m - 1) = 0 + 1 from by omega]
  simp [retryGo, hlast]
  omega

theorem retryLoop_pure (nmf : String → String) (s : String) (m : Nat) (hm : 1 ≤ m) :
    retryLoop (pureRes nmf s) m = .success (nmf s) 1 := by
  obtain ⟨r, rfl⟩ : ∃ r, m = r + 1 := ⟨m - 1, by omega⟩
  simp [retryLoop, retryGo, pureRes]

/-- C1: for every unit of work wrapped by the retry loop of the three batch
functions and every bound max_attempts with 1 <= max_attempts: if the
resolver raises on the first k-1 invocations and returns a value on
invocation k with k <= max_attempts, the loop yields that value after
exactly k invocations and performs no further ones; if the resolver raises
on every invocation, the loop raises a terminal RuntimeError after exactly
max_attempts invocations, with the exception of the last attempt as its
cause. -/
theorem retry_loop_spec {α : Type} (f : Nat → Except String α) (m : Nat) (hm : 1 ≤ m) :
    (∀ k v, 1 ≤ k → k ≤ m →
        (∀ i, i < k - 1 → ∃ e, f i = .error e) → f (k - 1) = .ok v →
        retryLoop f m = .success v k)
    ∧ (∀ e, (∀ i, i < m → ∃ e', f i = .error e') → f (m - 1) = .error e →
        retryLoop f m = .terminal e m) := by
  constructor
  · intro k v hk1 hkm herr hok
    exact retryLoop_success_at f m k v hk1 hkm herr hok
  · intro e herr hlast
    exact retryLoop_exhaust f m e hm (fun i hi => herr i (by omega)) hlast

/-- Witness for C1: a resolver failing once then succeeding returns the
success value on invocation 2 of bound 2; a resolver that always fails is
terminal with the last exception after all 3 invocations of bound 3. -/
theorem retry_loop_spec_witness :
    retryLoop (fun i => if i = 0 then .error ("boom") else .ok ("Homo_sapiens")) 2
        = .success ("Homo_sapiens") 2
    ∧ retryLoop (fun _ => (.error ("down") : Except String String)) 3
        = .terminal ("down") 3 := by
  constructor
  · exact (retry_loop_spec (fun i => if i = 0 then .error ("boom") else .ok ("Homo_sapiens"))
      2 (by omega)).1 2 ("Homo_sapiens") (by omega) (by omega)
      (fun i hi => ⟨("boom"), by have h0 : i = 0 := by omega
                                 subst h0; rfl⟩)
      (by rfl)
  · exact (retry_loop_spec (fun _ => (.error ("down") : Except String String)) 3 (by omega)).2
      ("down") (fun i _ => ⟨("down"), rfl⟩) rfl

/- ---------------------------------------------------------------------
Lemmas about the int() model: a string containing a dot never parses, so
a successfully parsed identifier equals its pre-dot prefix.
--------------------------------------------------------------------- -/

theorem mem_dropWhile_of_mem {α : Type} {p : α → Bool} {x : α} (hpx : p x = false) :
    ∀ l : List α, x ∈ l → x ∈ l.dropWhile p := by
  intro l
  induction l with
  | nil => intro h; cases h
  | cons a l ih =>
    intro hx
    rw [List.dropWhile_cons]
    split
    · next ha =>
      apply ih
      rcases List.mem_cons.mp hx with h | h
      · exact absurd ha (by rw [← h, hpx]; simp)
      · exact h
    · exact hx

theorem mem_pyStrip {x : Char} (hx : x.isWhitespace = false) {l : List Char}
    (h : x ∈ l) : x ∈ pyStrip l := by
  unfold pyStrip
  exact List.mem_reverse.mpr
    (mem_dropWhile_of_mem hx _ (List.mem_reverse.mpr (mem_dropWhile_of_mem hx _ h)))

theorem digitsTail_dot :
    ∀ (l : List Char) (acc : Nat) (u : Bool), ('.') ∈ l → digitsTail l acc u = none := by
  intro l
  induction l with
  | nil => intro acc u h; cases h
  | cons c rest ih =>
    intro acc u h
    by_cases hc : c.isDigit
    · have hrest : ('.') ∈ rest := by
        rcases List.mem_cons.mp h with h1 | h1
        · exact absurd hc (by rw [← h1]; decide)
        · exact h1
      simp only [digitsTail, hc, if_true]
      exact ih _ _ hrest
    · by_cases hc2 : (c = '_' && !u) = true
      · have hrest : ('.') ∈ rest := by
          rcases List.mem_cons.mp h with h1 | h1
          · exact absurd hc2 (by rw [← h1]; simp)
          · exact h1
        simp [digitsTail, hc, hc2, ih _ _ hrest]
      · simp [digitsTail, hc, hc2]

theorem pyIntCore_dot {l : List Char} (h : ('.') ∈ l) : pyIntCore l = none := by
  cases l with
  | nil => rfl
  | cons c rest =>
    by_cases hc : c.isDigit
    · have hrest : ('.') ∈ rest := by
        rcases List.mem_cons.mp h with h1 | h1
        · exact absurd hc (by rw [← h1]; decide)
        · exact h1
      simp [pyIntCore, hc, digitsTail_dot rest _ false hrest]
    · simp [pyIntCore, hc]

theorem pySignedDigits_dot {l : List Char} (h : ('.') ∈ l) : pySignedDigits l = none := by
  cases l with
  | nil => rfl
  | cons c rest =>
    by_cases hp : c = '+'
    · have hrest : ('.') ∈ rest := by
        rcases List.mem_cons.mp h with h1 | h1
        · exact absurd hp (by rw [← h1]; decide)
        · exact h1
      simp [pySignedDigits, hp, pyIntCore_dot hrest]
    · by_cases hn : c = '-'
      · have hrest : ('.') ∈ rest := by
          rcases List.mem_cons.mp h with h1 | h1
          · exact absurd hn (by rw [← h1]; decide)
          · exact h1
        simp [pySignedDigits, hp, hn, pyIntCore_dot hrest]
      · simp [pySignedDigits, hp, hn, pyIntCore_dot h]

theorem pyInt_dot {s : String} (h : ('.') ∈ s.data) : pyInt s = none :=
  pySignedDigits_dot (mem_pyStrip (by decide) h)

theorem pyInt_some_no_dot {s : String} {n : Int} (h : pyInt s = some n) :
    ('.') ∉ s.data := by
  intro hdot
  rw [pyInt_dot hdot] at h
  cases h

theorem pyHeadSplitDot_no_dot {s : String} (h : ('.') ∉ s.data) :
    pyHeadSplitDot s = s := by
  unfold pyHeadSplitDot
  have heq : s.data.takeWhile (fun c => c != '.') = s.data := by
    rw [List.takeWhile_eq_self_iff]
    intro x hx
    simp only [bne_iff_ne, ne_eq, decide_eq_true_eq]
    intro he
    exact h (he ▸ hx)
  rw [heq]

/-- C4 counterexample: the claim says a parse-failing identifier is
returned exactly as supplied without a remote query.  On the input abc.txt
the function returns abc, the pre-dot prefix, not the input; and on the
input 12.5, whose integer parse fails as a whole, the function queries the
remote service with the parsed prefix 12. -/
theorem species_name_prefix_cex :
    get_species_name_from_file (fun _ => .ok [⟨("Homo sapiens")⟩]) ("abc.txt")
        = .ok (("abc"), [])
    ∧ ("abc") ≠ ("abc.txt")
    ∧ pyInt ("12.5") = none
    ∧ get_species_name_from_file (fun _ => .ok [⟨("Homo sapiens")⟩]) ("12.5")
        = .ok (("Homo_sapiens"), [12]) :=
  ⟨by rfl, by decide, by decide, by rfl⟩

/-- C4 (amended): for every input string whose pre-dot prefix fails the
integer parse, get_species_name_from_file returns that pre-dot prefix
unchanged (the whole identifier when it contains no dot), without querying
the remote taxonomy service. -/
theorem species_name_invalid_taxid (efetch : Int → Except String (List TaxRecord))
    (s : String) (h : pyInt (pyHeadSplitDot s) = none) :
    get_species_name_from_file efetch s = .ok (pyHeadSplitDot s, []) := by
  simp [get_species_name_from_file, h]

/-- Witness for C4 (amended): on abc.fa the prefix abc fails the parse and
is returned with no remote query. -/
theorem species_name_invalid_taxid_witness :
    pyInt (pyHeadSplitDot ("abc.fa")) = none
    ∧ get_species_name_from_file (fun _ => .ok []) ("abc.fa")
        = .ok ((pyHeadSplitDot ("abc.fa")), []) :=
  ⟨by decide, species_name_invalid_taxid (fun _ => .ok []) ("abc.fa") (by decide)⟩

/-- C5: for every input string that parses as an integer for which the
remote taxonomy query returns an empty record set,
get_species_name_from_file returns the stringified integer identifier
(and the service was queried exactly with that id). -/
theorem species_name_not_found (efetch : Int → Except String (List TaxRecord))
    (s : String) (n : Int) (h1 : pyInt s = some n) (h2 : efetch n = .ok []) :
    get_species_name_from_file efetch s = .ok (toString n, [n]) := by
  have hpre : pyHeadSplitDot s = s := pyHeadSplitDot_no_dot (pyInt_some_no_dot h1)
  simp [get_species_name_from_file, hpre, h1, h2]

/-- Witness for C5: id 9606 with an empty remote record set resolves to
the string 9606. -/
theorem species_name_not_found_witness :
    pyInt ("9606") = some 9606
    ∧ get_species_name_from_file (fun _ => .ok []) ("9606")
        = .ok (toString (9606 : Int), [9606]) :=
  ⟨by decide, species_name_not_found (fun _ => .ok []) ("9606") 9606 (by decide) rfl⟩

/-- C6: for every input string that parses as an integer for which the
remote taxonomy query returns a non-empty record set, the function returns
the scientific name of the first record with every space replaced by an
underscore. -/
theorem species_name_found (efetch : Int → Except String (List TaxRecord))
    (s : String) (n : Int) (r : TaxRecord) (rs : List TaxRecord)
    (h1 : pyInt s = some n) (h2 : efetch n = .ok (r :: rs)) :
    get_species_name_from_file efetch s = .ok (pyReplaceSpace r.ScientificName, [n]) := by
  have hpre : pyHeadSplitDot s = s := pyHeadSplitDot_no_dot (pyInt_some_no_dot h1)
  simp [get_species_name_from_file, hpre, h1, h2]

/-- Witness for C6: id 9606 with scientific name Homo sapiens resolves to
Homo_sapiens. -/
theorem species_name_found_witness :
    pyInt ("9606") = some 9606
    ∧ pyReplaceSpace ("Homo sapiens") = ("Homo_sapiens")
    ∧ get_species_name_from_file (fun _ => .ok [⟨("Homo sapiens")⟩]) ("9606")
        = .ok (pyReplaceSpace ("Homo sapiens"), [9606]) :=
  ⟨by decide, by decide,
    species_name_found (fun _ => .ok [⟨("Homo sapiens")⟩]) ("9606") 9606
      ⟨("Homo sapiens")⟩ [] (by decide) rfl⟩

/- ---------------------------------------------------------------------
Closed forms of the three batch loops under a resolver that never raises,
and structural invariants of their traces.
--------------------------------------------------------------------- -/

theorem dbLoop_pure (ctx : DbCtx) (nmf : String → String)
    (hres : ctx.resolve = pureRes nmf) (hm : 1 ≤ ctx.max_attempts) :
    ∀ files : List String,
      dbLoop ctx files
        = .ok (files.filterMap (dbStepName ctx.valid ctx.force_rerun nmf),
            files.filterMap
              (dbStepCall ctx.valid ctx.force_rerun nmf ctx.input_db ctx.db_type
                ctx.tax_id_input ctx.output_directory_path)) := by
  intro files
  induction files with
  | nil => simp [dbLoop]
  | cons file rest ih =>
    simp only [dbLoop, hres, retryLoop_pure nmf _ _ hm]
    by_cases hskip : skip_existing ctx.valid ctx.force_rerun (nmf (pyHeadSplitDot file)) = true
    · simp [hskip, ih, dbStepName, dbStepCall, List.filterMap_cons]
    · simp only [Bool.not_eq_true] at hskip
      simp [hskip, ih, dbStepName, dbStepCall, List.filterMap_cons]

theorem idxLoop_pure (ctx : IdxCtx) (nmf : String → String)
    (hres : ctx.resolve = pureRes nmf) (hm : 1 ≤ ctx.max_attempts) :
    ∀ files : List String,
      idxLoop ctx files
        = .ok (files.filterMap
            (idxStep ctx.valid ctx.species ctx.force_rerun nmf
              ctx.input_directory_path)) := by
  intro files
  induction files with
  | nil => simp [idxLoop]
  | cons file rest ih =>
    simp only [idxLoop, hres, retryLoop_pure nmf _ _ hm]
    by_cases hskip : skip_existing ctx.valid ctx.force_rerun (nmf (pyHeadSplitDot file)) = true
    · simp [hskip, ih, idxStep, List.filterMap_cons]
    · simp only [Bool.not_eq_true] at hskip
      by_cases hsp : nmf (pyHeadSplitDot file) ∈ ctx.species
      · simp [hskip, hsp, ih, idxStep, List.filterMap_cons]
      · simp [hskip, hsp, ih, idxStep, List.filterMap_cons]

theorem harvLoop_pure (ctx : HarvCtx) (nmf : String → String)
    (hres : ctx.resolve = pureRes nmf) (hm : 1 ≤ ctx.max_attempts) :
    ∀ files : List String,
      harvLoop ctx files
        = .ok (files.filterMap
            (harvStep ctx.existing ctx.species ctx.force_rerun nmf
              ctx.index_directory_path ctx.output_directory_path)) := by
  intro files
  induction files with
  | nil => simp [harvLoop]
  | cons file rest ih =>
    simp only [harvLoop, hres, retryLoop_pure nmf _ _ hm]
    by_cases hskip : skip_existing ctx.existing ctx.force_rerun (nmf (pyHeadSplitDot file)) = true
    · simp [hskip, ih, harvStep, List.filterMap_cons]
    · simp only [Bool.not_eq_true] at hskip
      by_cases hsp : nmf (pyHeadSplitDot file) ∈ ctx.species
      · simp [hskip, hsp, ih, harvStep, List.filterMap_cons]
      · simp [hskip, hsp, ih, harvStep, List.filterMap_cons]

theorem dbLoop_genomes (ctx : DbCtx) :
    ∀ (files : List String) (g : List String) (tr : List BlastCall),
      dbLoop ctx files = .ok (g, tr) → g = tr.map BlastCall.dbName := by
  intro files
  induction files with
  | nil =>
    intro g tr h
    simp only [dbLoop, Except.ok.injEq, Prod.mk.injEq] at h
    obtain ⟨h1, h2⟩ := h
    subst h1
    subst h2
    rfl
  | cons file rest ih =>
    intro g tr h
    simp only [dbLoop] at h
    cases hr : retryLoop (ctx.resolve (pyHeadSplitDot file)) ctx.max_attempts with
    | terminal e k => rw [hr] at h; simp at h
    | noAttempt => rw [hr] at h; simp at h
    | success sc k =>
      rw [hr] at h
      by_cases hskip : skip_existing ctx.valid ctx.force_rerun sc = true
      · simp [hskip] at h
        exact ih g tr h
      · simp only [Bool.not_eq_true] at hskip
        simp only [hskip, Bool.false_eq_true, if_false] at h
        cases hrec : dbLoop ctx rest with
        | error e => rw [hrec] at h; simp at h
        | ok p =>
          obtain ⟨g', tr'⟩ := p
          rw [hrec] at h
          simp only [Except.ok.injEq, Prod.mk.injEq] at h
          obtain ⟨hg, htr⟩ := h
          rw [← hg, ← htr]
          cases htax : ctx.tax_id_input <;>
            simp [htax, blast_db_generator, ih g' tr' hrec]

theorem idxLoop_species (ctx : IdxCtx) :
    ∀ (files : List String) (tr : List SuffixCall),
      idxLoop ctx files = .ok tr → ∀ c ∈ tr, c.sc_name ∈ ctx.species := by
  intro files
  induction files with
  | nil =>
    intro tr h
    simp only [idxLoop, Except.ok.injEq] at h
    subst h
    intro c hc
    cases hc
  | cons file rest ih =>
    intro tr h
    simp only [idxLoop] at h
    cases hr : retryLoop (ctx.resolve (pyHeadSplitDot file)) ctx.max_attempts with
    | terminal e k => rw [hr] at h; simp at h
    | noAttempt => rw [hr] at h; exact ih tr h
    | success sc k =>
      rw [hr] at h
      by_cases hskip : skip_existing ctx.valid ctx.force_rerun sc = true
      · simp [hskip] at h
        exact ih tr h
      · simp only [Bool.not_eq_true] at hskip
        simp only [hskip, Bool.false_eq_true, if_false] at h
        by_cases hsp : sc ∈ ctx.species
        · simp [hsp] at h
          cases hrec : idxLoop ctx rest with
          | error e => rw [hrec] at h; simp at h
          | ok calls =>
            rw [hrec] at h
            simp only [Except.ok.injEq] at h
            intro c hc
            rw [← h] at hc
            rcases List.mem_cons.mp hc with h1 | h1
            · rw [h1]; exact hsp
            · exact ih calls hrec c h1
        · simp [hsp] at h
          exact ih tr h

theorem harvLoop_species (ctx : HarvCtx) :
    ∀ (files : List String) (tr : List HarvestCall),
      harvLoop ctx files = .ok tr → ∀ c ∈ tr, c.sc_name ∈ ctx.species := by
  intro files
  induction files with
  | nil =>
    intro tr h
    simp only [harvLoop, Except.ok.injEq] at h
    subst h
    intro c hc
    cases hc
  | cons file rest ih =>
    intro tr h
    simp only [harvLoop] at h
    cases hr : retryLoop (ctx.resolve (pyHeadSplitDot file)) ctx.max_attempts with
    | terminal e k => rw [hr] at h; simp at h
    | noAttempt => rw [hr] at h; exact ih tr h
    | success sc k =>
      rw [hr] at h
      by_cases hskip : skip_existing ctx.existing ctx.force_rerun sc = true
      · simp [hskip] at h
        exact ih tr h
      · simp only [Bool.not_eq_true] at hskip
        simp only [hskip, Bool.false_eq_true, if_false] at h
        by_cases hsp : sc ∈ ctx.species
        · simp [hsp] at h
          cases hrec : harvLoop ctx rest with
          | error e => rw [hrec] at h; simp at h
          | ok calls =>
            rw [hrec] at h
            simp only [Except.ok.injEq] at h
            intro c hc
            rw [← h] at hc
            rcases List.mem_cons.mp hc with h1 | h1
            · rw [h1]; exact hsp
            · exact ih calls hrec c h1
        · simp [hsp] at h
          exact ih tr h

theorem filterMap_some_eq_map {α β : Type} (f : α → β) :
    ∀ l : List α, l.filterMap (fun a => some (f a)) = l.map f := by
  intro l
  induction l with
  | nil => rfl
  | cons a l ih => simp [List.filterMap_cons, ih]

/-- C8: directory_db_generator returns exactly the list of resolved species
names for which a database-builder invocation was performed during the
call, in input-file order (the trace lists the performed invocations in
order, skipped files contribute no entry); ltr_index_generator and
ltr_harvester return nothing (the unit value), their effects being only
the invocation traces. -/
theorem return_values_spec :
    (∀ (fs : List (String × Bool)) (files : List String) (idb dbt : String)
        (tax : Bool) (out : String) (resolve : String → Nat → Except String String)
        (m : Nat) (force : Bool) (g : List String) (tr : List BlastCall),
        directory_db_generator fs files idb dbt tax out resolve m force = .ok (g, tr) →
        g = tr.map BlastCall.dbName)
    ∧ (∀ (fs : List (String × Bool)) (dir : String) (files : List String)
        (species : List String) (resolve : String → Nat → Except String String)
        (m : Nat) (force : Bool) (r : Unit × List SuffixCall),
        ltr_index_generator fs dir files species resolve m force = .ok r → r.1 = ())
    ∧ (∀ (rootFiles : List String) (idxdir : String) (files : List String)
        (outdir : String) (species : List String)
        (resolve : String → Nat → Except String String) (m : Nat) (force : Bool)
        (r : Unit × List HarvestCall),
        ltr_harvester rootFiles idxdir files outdir species resolve m force = .ok r →
        r.1 = ()) := by
  refine ⟨?_, ?_, ?_⟩
  · intro fs files idb dbt tax out resolve m force g tr h
    exact dbLoop_genomes _ files g tr h
  · intro _ _ _ _ _ _ _ r _
    rfl
  · intro _ _ _ _ _ _ _ _ r _
    rfl

/-- Witness for C8: a two-file batch in which the first file is skipped
returns exactly the name of the one performed invocation. -/
theorem return_values_spec_witness :
    directory_db_generator [(("a"), true)] [("a.fa"), ("b.fa")] ("in") ("nucl") true
        ("out") (pureRes (fun s => s)) 3 false
        = .ok ([("b")], [⟨("in/b.fa"), ("nucl"), ("out/b/b"), ("b")⟩])
    ∧ [("b")] = [(⟨("in/b.fa"), ("nucl"), ("out/b/b"), ("b")⟩ : BlastCall)].map
        BlastCall.dbName
    ∧ ((), [(⟨("in/x.fa"), ("in/x/x"), ("x")⟩ : SuffixCall)]).1 = () := by
  refine ⟨by rfl, ?_, ?_⟩
  · exact return_values_spec.1 [(("a"), true)] [("a.fa"), ("b.fa")] ("in") ("nucl") true
      ("out") (pureRes (fun s => s)) 3 false _ _ (by rfl)
  · exact return_values_spec.2.1 [] ("in") [("x.fa")] [("x")] (pureRes (fun s => s)) 3
      false ((), [⟨("in/x.fa"), ("in/x/x"), ("x")⟩]) (by rfl)

/-- C3: a resolved species name outside the species registry never reaches
the external index builder or repeat harvester: every invocation in either
trace carries a registry name, and a single-file batch whose resolved name
is outside the registry performs no invocation, for every force_rerun flag
and every marker state. -/
theorem registry_gating :
    (∀ (fs : List (String × Bool)) (dir : String) (files : List String)
        (species : List String) (resolve : String → Nat → Except String String)
        (m : Nat) (force : Bool) (tr : List SuffixCall),
        ltr_index_generator fs dir files species resolve m force = .ok ((), tr) →
        ∀ c ∈ tr, c.sc_name ∈ species)
    ∧ (∀ (rootFiles : List String) (idxdir : String) (files : List String)
        (outdir : String) (species : List String)
        (resolve : String → Nat → Except String String) (m : Nat) (force : Bool)
        (tr : List HarvestCall),
        ltr_harvester rootFiles idxdir files outdir species resolve m force = .ok ((), tr) →
        ∀ c ∈ tr, c.sc_name ∈ species)
    ∧ (∀ (nmf : String → String) (f : String) (species : List String),
        nmf (pyHeadSplitDot f) ∉ species →
        ∀ (fs : List (String × Bool)) (dir : String) (m : Nat) (force : Bool), 1 ≤ m →
          ltr_index_generator fs dir [f] species (pureRes nmf) m force = .ok ((), []))
    ∧ (∀ (nmf : String → String) (f : String) (species : List String),
        nmf (pyHeadSplitDot f) ∉ species →
        ∀ (rootFiles : List String) (idxdir outdir : String) (m : Nat) (force : Bool),
          1 ≤ m →
          ltr_harvester rootFiles idxdir [f] outdir species (pureRes nmf) m force
            = .ok ((), [])) := by
  refine ⟨?_, ?_, ?_, ?_⟩
  · intro fs dir files species resolve m force tr h c hc
    have hloop : idxLoop
        { valid := validDirectories fs, species := species, resolve := resolve,
          input_directory_path := dir, max_attempts := m, force_rerun := force }
        files = .ok tr := by
      unfold ltr_index_generator at h
      cases hl : idxLoop
          { valid := validDirectories fs, species := species, resolve := resolve,
            input_directory_path := dir, max_attempts := m, force_rerun := force }
          files with
      | error e => rw [hl] at h; simp [Except.map] at h
      | ok tr2 => rw [hl] at h; simp [Except.map] at h; rw [h]
    exact idxLoop_species _ files tr hloop c hc
  · intro rootFiles idxdir files outdir species resolve m force tr h c hc
    have hloop : harvLoop
        { existing := globFastaStems rootFiles, species := species, resolve := resolve,
          index_directory_path := idxdir, output_directory_path := outdir,
          max_attempts := m, force_rerun := force }
        files = .ok tr := by
      unfold ltr_harvester at h
      cases hl : harvLoop
          { existing := globFastaStems rootFiles, species := species, resolve := resolve,
            index_directory_path := idxdir, output_directory_path := outdir,
            max_attempts := m, force_rerun := force }
          files with
      | error e => rw [hl] at h; simp [Except.map] at h
      | ok tr2 => rw [hl] at h; simp [Except.map] at h; rw [h]
    exact harvLoop_species _ files tr hloop c hc
  · intro nmf f species hout fs dir m force hm
    unfold ltr_index_generator
    rw [idxLoop_pure _ nmf rfl hm]
    simp [idxStep, Except.map, hout, List.filterMap_cons]
  · intro nmf f species hout rootFiles idxdir outdir m force hm
    unfold ltr_harvester
    rw [harvLoop_pure _ nmf rfl hm]
    simp [harvStep, Except.map, hout, List.filterMap_cons]

/-- Witness for C3: in a registry holding only the name 9606, the one
performed index invocation carries a registry name, and files resolving to
a name outside the registry trigger no index or harvest invocation even
with no marker present and force_rerun set. -/
theorem registry_gating_witness :
    (⟨("in/9606.fa"), ("in/9606/9606"), ("9606")⟩ : SuffixCall).sc_name ∈ [("9606")]
    ∧ ltr_index_generator [] ("in") [("x.fa")] [("9606")] (pureRes (fun s => s)) 3 true
        = .ok ((), [])
    ∧ ltr_harvester [] ("idx") [("x.fa")] ("out") [("9606")] (pureRes (fun s => s)) 3
        true = .ok ((), []) := by
  refine ⟨?_, ?_, ?_⟩
  · exact registry_gating.1 [] ("in") [("9606.fa")] [("9606")] (pureRes (fun s => s)) 3
      false _ (by rfl) _ (by decide)
  · exact registry_gating.2.2.1 (fun s => s) ("x.fa") [("9606")] (by decide) [] ("in") 3
      true (by omega)
  · exact registry_gating.2.2.2 (fun s => s) ("x.fa") [("9606")] (by decide) [] ("idx")
      ("out") 3 true (by omega)

/-- C2: once every file of the batch resolves to a species whose directory
holds a .ndb marker (the state after a completed first run), a second run
with force_rerun false skips every file and performs zero external
database-builder invocations; a run with force_rerun true performs the
invocation again for every file of the list, in input order. -/
theorem db_generator_idempotent (fs fs2 : List (String × Bool)) (files : List String)
    (nmf : String → String) (idb dbt : String) (tax : Bool) (out : String) (m : Nat)
    (hm : 1 ≤ m)
    (hmarked : ∀ f ∈ files, nmf (pyHeadSplitDot f) ∈ validDirectories fs2) :
    directory_db_generator fs2 files idb dbt tax out (pureRes nmf) m false = .ok ([], [])
    ∧ directory_db_generator fs files idb dbt tax out (pureRes nmf) m true
        = .ok (files.map (fun f => nmf (pyHeadSplitDot f)),
            files.map (fun f =>
              if tax then
                blast_db_generator (pyJoin idb f)
                  (directory_generator out (nmf (pyHeadSplitDot f)))
                  (nmf (pyHeadSplitDot f)) dbt
              else
                blast_db_generator (pyJoin idb (nmf (pyHeadSplitDot f) ++ (".fasta")))
                  (directory_generator out (nmf (pyHeadSplitDot f)))
                  (nmf (pyHeadSplitDot f)) dbt)) := by
  constructor
  · unfold directory_db_generator
    rw [dbLoop_pure _ nmf rfl hm files]
    have h1 : files.filterMap (dbStepName (validDirectories fs2) false nmf) = [] := by
      rw [List.filterMap_eq_nil_iff]
      intro f hf
      simp [dbStepName, skip_existing, hmarked f hf]
    have h2 : files.filterMap
        (dbStepCall (validDirectories fs2) false nmf idb dbt tax out) = [] := by
      rw [List.filterMap_eq_nil_iff]
      intro f hf
      simp [dbStepCall, skip_existing, hmarked f hf]
    rw [h1, h2]
  · unfold directory_db_generator
    rw [dbLoop_pure _ nmf rfl hm files]
    have hname : dbStepName (validDirectories fs) true nmf
        = fun f => some (nmf (pyHeadSplitDot f)) := by
      funext f
      simp [dbStepName, skip_existing]
    have hcall : dbStepCall (validDirectories fs) true nmf idb dbt tax out
        = fun f =>
            some
              (if tax then
                blast_db_generator (pyJoin idb f)
                  (directory_generator out (nmf (pyHeadSplitDot f)))
                  (nmf (pyHeadSplitDot f)) dbt
              else
                blast_db_generator (pyJoin idb (nmf (pyHeadSplitDot f) ++ (".fasta")))
                  (directory_generator out (nmf (pyHeadSplitDot f)))
                  (nmf (pyHeadSplitDot f)) dbt) := by
      funext f
      by_cases htax : tax = true <;> simp [dbStepCall, skip_existing, htax]
    rw [hname, hcall, filterMap_some_eq_map, filterMap_some_eq_map]

/-- Witness for C2: with the species directory x already marked, the
second run over the one-file batch skips it, and a force_rerun run
performs the invocation again. -/
theorem db_generator_idempotent_witness :
    directory_db_generator [(("x"), true)] [("x.fa")] ("in") ("nucl") true ("out")
        (pureRes (fun s => s)) 3 false = .ok ([], [])
    ∧ directory_db_generator [(("x"), true)] [("x.fa")] ("in") ("nucl") true ("out")
        (pureRes (fun s => s)) 3 true
        = .ok ([("x.fa")].map (fun f => pyHeadSplitDot f),
            [("x.fa")].map (fun f =>
              if true then
                blast_db_generator (pyJoin ("in") f)
                  (directory_generator ("out") (pyHeadSplitDot f)) (pyHeadSplitDot f)
                  ("nucl")
              else
                blast_db_generator (pyJoin ("in") (pyHeadSplitDot f ++ (".fasta")))
                  (directory_generator ("out") (pyHeadSplitDot f)) (pyHeadSplitDot f)
                  ("nucl"))) :=
  ⟨(db_generator_idempotent [(("x"), true)] [(("x"), true)] [("x.fa")] (fun s => s)
      ("in") ("nucl") true ("out") 3 (by omega) (by decide)).1,
   (db_generator_idempotent [(("x"), true)] [(("x"), true)] [("x.fa")] (fun s => s)
      ("in") ("nucl") true ("out") 3 (by omega) (by decide)).2⟩

theorem length_fasta_data : (".fasta").data.length = 6 := by decide

theorem mem_globFastaStems (rootFiles : List String) (nm : String) :
    nm ∈ globFastaStems rootFiles ↔ (nm ++ (".fasta")) ∈ rootFiles := by
  unfold globFastaStems
  constructor
  · intro h
    obtain ⟨n, hn, hstem⟩ := List.mem_map.mp h
    obtain ⟨hnroot, hsuf⟩ := List.mem_filter.mp hn
    have hsuffix : (".fasta").data <:+ n.data := by simpa using hsuf
    obtain ⟨t, ht⟩ := hsuffix
    have hlen : n.data.length - 6 = t.length := by
      rw [← ht]
      simp [length_fasta_data]
    have htake : n.data.take (n.data.length - 6) = t := by
      rw [hlen, ← ht, List.take_left]
    have heq : nm ++ (".fasta") = n := by
      apply String.ext
      rw [String.data_append, ← hstem, htake, ht]
    rw [heq]
    exact hnroot
  · intro h
    apply List.mem_map.mpr
    refine ⟨nm ++ (".fasta"), List.mem_filter.mpr ⟨h, ?_⟩, ?_⟩
    · simp only [String.data_append, List.isSuffixOf_iff_suffix]
      exact List.suffix_append nm.data (".fasta").data
    · apply String.ext
      simp only [String.data_append]
      have hlen : (nm.data ++ (".fasta").data).length - 6 = nm.data.length := by
        simp [length_fasta_data]
      rw [hlen, List.take_left]

/-- C7 counterexample: the claim equates being skipped (no harvester
invocation) with the presence of the .fasta output at the root, for every
resolved species name.  For a species outside the species registry the
harvester is never invoked even though no .fasta output exists: a
single-file batch with an empty registry and an empty output root performs
no invocation while Gallus.fasta is absent from the root. -/
theorem harvest_skip_marker_cex :
    ltr_harvester [] ("idx") [("Gallus.fa")] ("out") [] (pureRes (fun s => s)) 3 false
        = .ok ((), [])
    ∧ ((("Gallus") ++ (".fasta")) ∈ ([] : List String)) = False :=
  ⟨by rfl, by simp⟩

/-- C7 (amended): for every resolved species name in the species registry
processed by ltr_harvester with force_rerun false, the file is skipped (no
harvester invocation) if and only if a file named from the species with
the .fasta extension exists directly under the output directory root; the
skip check consults exactly the root-level .fasta stems, and a performed
invocation targets the root-level .fasta/.gff output pair of the species. -/
theorem harvest_skip_marker (rootFiles : List String) (species : List String)
    (nmf : String → String) (file idxdir outdir : String) (m : Nat) (hm : 1 ≤ m)
    (hreg : nmf (pyHeadSplitDot file) ∈ species) :
    (skip_existing (globFastaStems rootFiles) false (nmf (pyHeadSplitDot file)) = true
      ↔ (nmf (pyHeadSplitDot file) ++ (".fasta")) ∈ rootFiles)
    ∧ (ltr_harvester rootFiles idxdir [file] outdir species (pureRes nmf) m false
          = .ok ((), [])
        ↔ (nmf (pyHeadSplitDot file) ++ (".fasta")) ∈ rootFiles)
    ∧ ((nmf (pyHeadSplitDot file) ++ (".fasta")) ∉ rootFiles →
        ltr_harvester rootFiles idxdir [file] outdir species (pureRes nmf) m false
          = .ok ((),
              [{ index := pyJoin (pyJoin idxdir (nmf (pyHeadSplitDot file)))
                    (nmf (pyHeadSplitDot file))
                 out := pyJoin outdir (nmf (pyHeadSplitDot file) ++ (".fasta"))
                 gff3 := pyJoin outdir (nmf (pyHeadSplitDot file) ++ (".gff"))
                 sc_name := nmf (pyHeadSplitDot file) }])) := by
  have hiff : skip_existing (globFastaStems rootFiles) false (nmf (pyHeadSplitDot file))
      = true ↔ (nmf (pyHeadSplitDot file) ++ (".fasta")) ∈ rootFiles := by
    rw [← mem_globFastaStems]
    simp [skip_existing]
  refine ⟨hiff, ?_, ?_⟩
  · constructor
    · intro h
      by_contra habs
      have hmem : nmf (pyHeadSplitDot file) ∉ globFastaStems rootFiles := by
        rw [mem_globFastaStems]
        exact habs
      unfold ltr_harvester at h
      rw [harvLoop_pure _ nmf rfl hm] at h
      simp [harvStep, skip_existing, hmem, hreg, Except.map, List.filterMap_cons] at h
    · intro h
      have hskip : skip_existing (globFastaStems rootFiles) false
          (nmf (pyHeadSplitDot file)) = true := hiff.mpr h
      unfold ltr_harvester
      rw [harvLoop_pure _ nmf rfl hm]
      simp [harvStep, hskip, Except.map, List.filterMap_cons]
  · intro habs
    have hmem : nmf (pyHeadSplitDot file) ∉ globFastaStems rootFiles := by
      rw [mem_globFastaStems]
      exact habs
    unfold ltr_harvester
    rw [harvLoop_pure _ nmf rfl hm]
    simp [harvStep, skip_existing, hmem, hreg, Except.map, List.filterMap_cons]

/-- Witness for C7 (amended): with Homo_sapiens.fasta present at the output
root, the file is skipped; removing it makes the invocation happen and
target the root-level .fasta and .gff pair. -/
theorem harvest_skip_marker_witness :
    (skip_existing (globFastaStems [("Homo_sapiens.fasta")]) false
        (pyHeadSplitDot ("Homo_sapiens.fa")) = true
      ↔ (pyHeadSplitDot ("Homo_sapiens.fa") ++ (".fasta")) ∈ [("Homo_sapiens.fasta")]) :=
  (harvest_skip_marker [("Homo_sapiens.fasta")] [("Homo_sapiens")] (fun s => s)
    ("Homo_sapiens.fa") ("idx") ("out") 3 (by omega) (by decide)).1

/-- C10 counterexample: the claim asserts that two same-species files that
are not skipped make the external tool run twice, also for
ltr_index_generator.  With a registry not containing the resolved name,
two files resolving to the same name are both unskipped (no marker
present for them), yet the index builder is invoked zero times. -/
theorem snapshot_duplicates_cex :
    ltr_index_generator [] ("in") [("x.fa"), ("x.fa")] [] (pureRes (fun s => s)) 3 false
        = .ok ((), [])
    ∧ skip_existing (validDirectories []) false (pyHeadSplitDot ("x.fa")) = false :=
  ⟨by rfl, by decide⟩

/-- C10 (amended): the already-complete set is computed once before the
loop and never updated during the batch.  For two files of the same batch
resolving to the same species name, if the first is not skipped the second
is not skipped either; directory_db_generator then invokes the builder
twice for that species and returns its name twice; ltr_index_generator
likewise invokes the index builder twice provided the resolved name is in
the species registry (a name outside the registry is never invoked). -/
theorem snapshot_duplicates (fs fsIdx : List (String × Bool)) (l1 l2 l3 : List String)
    (f1 f2 : String) (nmf : String → String) (idb dbt : String) (tax : Bool)
    (out dirIdx : String) (species : List String) (m : Nat) (force : Bool)
    (hm : 1 ≤ m)
    (hname : nmf (pyHeadSplitDot f2) = nmf (pyHeadSplitDot f1))
    (hskip : skip_existing (validDirectories fs) force (nmf (pyHeadSplitDot f1)) = false) :
    skip_existing (validDirectories fs) force (nmf (pyHeadSplitDot f2)) = false
    ∧ directory_db_generator fs (l1 ++ f1 :: (l2 ++ f2 :: l3)) idb dbt tax out
        (pureRes nmf) m force
        = .ok ((l1 ++ f1 :: (l2 ++ f2 :: l3)).filterMap
              (dbStepName (validDirectories fs) force nmf),
            (l1 ++ f1 :: (l2 ++ f2 :: l3)).filterMap
              (dbStepCall (validDirectories fs) force nmf idb dbt tax out))
    ∧ 2 ≤ ((l1 ++ f1 :: (l2 ++ f2 :: l3)).filterMap
          (dbStepName (validDirectories fs) force nmf)).count (nmf (pyHeadSplitDot f1))
    ∧ ((l1 ++ f1 :: (l2 ++ f2 :: l3)).filterMap
          (dbStepName (validDirectories fs) force nmf))
        = ((l1 ++ f1 :: (l2 ++ f2 :: l3)).filterMap
            (dbStepCall (validDirectories fs) force nmf idb dbt tax out)).map
          BlastCall.dbName
    ∧ (nmf (pyHeadSplitDot f1) ∈ species →
        skip_existing (validDirectories fsIdx) force (nmf (pyHeadSplitDot f1)) = false →
        ltr_index_generator fsIdx dirIdx (l1 ++ f1 :: (l2 ++ f2 :: l3)) species
            (pureRes nmf) m force
          = .ok ((), (l1 ++ f1 :: (l2 ++ f2 :: l3)).filterMap
              (idxStep (validDirectories fsIdx) species force nmf dirIdx))
        ∧ 2 ≤ (((l1 ++ f1 :: (l2 ++ f2 :: l3)).filterMap
              (idxStep (validDirectories fsIdx) species force nmf dirIdx)).map
            SuffixCall.sc_name).count (nmf (pyHeadSplitDot f1))) := by
  have hskip2 : skip_existing (validDirectories fs) force (nmf (pyHeadSplitDot f2))
      = false := by rw [hname]; exact hskip
  refine ⟨hskip2, ?_, ?_, ?_, ?_⟩
  · unfold directory_db_generator
    rw [dbLoop_pure _ nmf rfl hm]
  · have ha1 : dbStepName (validDirectories fs) force nmf f1
        = some (nmf (pyHeadSplitDot f1)) := by
      simp [dbStepName, hskip]
    have ha2 : dbStepName (validDirectories fs) force nmf f2
        = some (nmf (pyHeadSplitDot f1)) := by
      simp [dbStepName, hname, hskip]
    rw [List.filterMap_append, List.filterMap_cons, ha1, List.filterMap_append,
      List.filterMap_cons, ha2]
    simp [List.count_append]
    omega
  · have hrun : directory_db_generator fs (l1 ++ f1 :: (l2 ++ f2 :: l3)) idb dbt tax out
        (pureRes nmf) m force
        = .ok ((l1 ++ f1 :: (l2 ++ f2 :: l3)).filterMap
              (dbStepName (validDirectories fs) force nmf),
            (l1 ++ f1 :: (l2 ++ f2 :: l3)).filterMap
              (dbStepCall (validDirectories fs) force nmf idb dbt tax out)) := by
      unfold directory_db_generator
      rw [dbLoop_pure _ nmf rfl hm]
    exact dbLoop_genomes _ _ _ _ hrun
  · intro hreg hskipIdx
    have hskipIdx2 : skip_existing (validDirectories fsIdx) force (nmf (pyHeadSplitDot f2))
        = false := by rw [hname]; exact hskipIdx
    constructor
    · unfold ltr_index_generator
      rw [idxLoop_pure _ nmf rfl hm]
      rfl
    · have hc1 : idxStep (validDirectories fsIdx) species force nmf dirIdx f1
          = some
              { db := pyJoin dirIdx f1
                indexname := pyJoin (pyJoin dirIdx (nmf (pyHeadSplitDot f1)))
                  (nmf (pyHeadSplitDot f1))
                sc_name := nmf (pyHeadSplitDot f1) } := by
        simp [idxStep, hskipIdx, hreg]
      have hc2 : idxStep (validDirectories fsIdx) species force nmf dirIdx f2
          = some
              { db := pyJoin dirIdx f2
                indexname := pyJoin (pyJoin dirIdx (nmf (pyHeadSplitDot f1)))
                  (nmf (pyHeadSplitDot f1))
                sc_name := nmf (pyHeadSplitDot f1) } := by
        simp [idxStep, hname, hskipIdx, hreg]
      rw [List.filterMap_append, List.filterMap_cons, hc1, List.filterMap_append,
        List.filterMap_cons, hc2]
      simp [List.count_append, List.map_append]
      omega

/-- Witness for C10 (amended): two files resolving to species x with no
marker present are both processed; the name x appears twice in the genomes
list and the index builder runs twice when x is in the registry. -/
theorem snapshot_duplicates_witness :
    skip_existing (validDirectories []) false (pyHeadSplitDot ("x.fb")) = false
    ∧ 2 ≤ (([] ++ ("x.fa") :: ([] ++ ("x.fb") :: [])).filterMap
          (dbStepName (validDirectories []) false (fun s => s))).count
        (pyHeadSplitDot ("x.fa")) := by
  have h := snapshot_duplicates [] [] [] [] [] ("x.fa") ("x.fb") (fun s => s) ("in")
    ("nucl") true ("out") ("inIdx") [("x")] 3 false (by omega) (by decide) (by decide)
  exact ⟨h.1, h.2.2.1⟩

theorem strAppend_assoc (a b c : String) : a ++ b ++ c = a ++ (b ++ c) := by
  apply String.ext
  simp [String.data_append, List.append_assoc]

theorem strEmpty_append (s : String) : ("") ++ s = s := by
  apply String.ext
  simp [String.data_append, show (("") : String).data = [] from rfl]

theorem objdict_fold (output_file_name : String) :
    ∀ (d : List (String × SeqObj)) (acc1 : String) (acc2 : List String),
      d.foldl
        (fun acc kv =>
          (acc.1 ++ kv.2.get_fasta ("seqrecord"),
           acc.2 ++ [("Extracted FASTA from ") ++ kv.1 ++ (" and appended to ")
              ++ output_file_name ++ (".")]))
        (acc1, acc2)
        = (acc1 ++ concatFasta d,
           acc2 ++ d.map (fun kv => fastaLogLine kv.1 output_file_name)) := by
  intro d
  induction d with
  | nil =>
    intro acc1 acc2
    simp [concatFasta]
  | cons kv rest ih =>
    intro acc1 acc2
    simp only [List.foldl_cons]
    rw [ih]
    simp [concatFasta, fastaLogLine, strAppend_assoc]

/-- C9: for every mapping of keys to sequence objects, objdict2fasta
produces, in the once-opened output file at the joined output path, exactly
the concatenation of one FASTA serialization per entry in mapping insertion
order, and logs exactly one append line per entry, in the same order. -/
theorem objdict2fasta_spec (object_dict : List (String × SeqObj))
    (output_directory_path output_file_name : String) :
    objdict2fasta object_dict output_directory_path output_file_name
      = (pyJoin output_directory_path output_file_name,
         concatFasta object_dict,
         object_dict.map (fun kv => fastaLogLine kv.1 output_file_name))
    ∧ (object_dict.map (fun kv => fastaLogLine kv.1 output_file_name)).length
        = object_dict.length := by
  constructor
  · unfold objdict2fasta
    rw [objdict_fold]
    simp [strEmpty_append]
  · simp

end DbUtils
